import Mathlib

/-!
Verification of the mailfree inbound-email pipeline and expiry sweeper
(`src/server.js`), via a shallow embedding of the `email` and `scheduled`
handlers.  JavaScript strings are modelled as `List Char`; JS truthiness of a
string is emptiness; machine `Date` components and the datastore clock are
explicit parameters.  Helper modules that the handler imports but that are not
part of this file's source (`extractEmail`, `parseEmailBody`,
`extractVerificationCode`, `getForwardTarget`, the two forwarders) are
parameters of the embedding: the claims constrain only their observable
outputs, never their internals.
-/

namespace Mailfree

/-- JS strings as character lists. -/
abbrev Str := List Char

/-- JS `a || b` on strings: the empty string is falsy. -/
def jsOr (a b : Str) : Str := if a = [] then b else a

/-- JS `String.prototype.toLowerCase` (ASCII case mapping, as `Char.toLower`). -/
def toLowerStr (s : Str) : Str := s.map Char.toLower

/-- The character class of JS regex `\s` (whitespace), per ECMA-262. -/
def isJsWs (c : Char) : Bool :=
  c = ' ' || c = '\t' || c = '\n' || c = '\r' ||
  c.val = 0x0b || c.val = 0x0c || c.val = 0xa0 || c.val = 0x1680 ||
  (0x2000 ≤ c.val && c.val ≤ 0x200a) ||
  c.val = 0x2028 || c.val = 0x2029 || c.val = 0x202f || c.val = 0x205f ||
  c.val = 0x3000 || c.val = 0xfeff

/-- JS `String.prototype.trim`: strip leading and trailing whitespace. -/
def trimJs (s : Str) : Str :=
  ((s.dropWhile isJsWs).reverse.dropWhile isJsWs).reverse

/-- Helper for `collapseWs`: the boolean records whether the previous emitted
character position was inside a whitespace run. -/
def collapseAux : Bool → Str → Str
  | _, [] => []
  | prevWs, c :: cs =>
    if isJsWs c then
      if prevWs then collapseAux true cs else ' ' :: collapseAux true cs
    else c :: collapseAux false cs

/-- JS `.replace(/\s+/g, ' ')`: collapse each maximal whitespace run to one
space. -/
def collapseWs (s : Str) : Str := collapseAux false s

/-- Scan for the `>` that closes a tag, returning the remainder after it. -/
def tagClose : Str → Option Str
  | [] => none
  | c :: cs => if c = '>' then some cs else tagClose cs

/-- Match `[^>]+>` at the head of the string (at least one non-`>` character,
then `>`), returning the remainder. -/
def tagEnd : Str → Option Str
  | [] => none
  | c :: cs => if c = '>' then none else tagClose cs

/-- JS `.replace(/<[^>]+>/g, ' ')`: each HTML-tag-shaped run `<…>` is replaced
by a single space; an unmatched `<` is kept. -/
def stripTags : Str → Str
  | [] => []
  | c :: cs =>
    if c = '<' then
      match h : tagEnd cs with
      | some rest => ' ' :: stripTags rest
      | none => c :: stripTags cs
    else c :: stripTags cs
termination_by s => s.length
decreasing_by
  · have hclose : ∀ s r : Str, tagClose s = some r → r.length < s.length := by
      intro s
      induction s with
      | nil => intro r hr; simp [tagClose] at hr
      | cons x xs ih =>
        intro r hr
        by_cases hx : x = '>'
        · simp [tagClose, hx] at hr
          simp [← hr]
        · simp [tagClose, hx] at hr
          exact Nat.lt_succ_of_lt (ih r hr)
    have hend : rest.length < cs.length := by
      cases cs with
      | nil => simp [tagEnd] at h
      | cons x xs =>
        by_cases hx : x = '>'
        · simp [tagEnd, hx] at h
        · simp [tagEnd, hx] at h
          exact Nat.lt_succ_of_lt (hclose xs rest h)
    exact Nat.lt_succ_of_lt hend
  · exact Nat.lt_succ_self _
  · exact Nat.lt_succ_self _

/-- JS `String.prototype.split` with a single-character separator:
`"".split(c) = [""]`, `"a@b".split('@') = ["a","b"]`. -/
def jsSplit (sep : Char) : Str → List Str
  | [] => [[]]
  | c :: cs =>
    if c = sep then [] :: jsSplit sep cs
    else
      match jsSplit sep cs with
      | [] => [[c]]
      | p :: ps => (c :: p) :: ps

/-- JS `Array.prototype.join(',')`. -/
def joinComma : List Str → Str
  | [] => []
  | [s] => s
  | s :: rest => s ++ ',' :: joinComma rest

/-- The character class `[a-z0-9@._-]` of the object-key sanitizer. -/
def isAllowedKeyChar (c : Char) : Bool :=
  ('a' ≤ c && c ≤ 'z') || ('0' ≤ c && c ≤ '9') ||
  c = '@' || c = '.' || c = '_' || c = '-'

/-- JS `.replace(/[^a-z0-9@._-]/g, '_')`, scanning character by character. -/
def replaceDisallowed : Str → Str
  | [] => []
  | c :: cs => (if isAllowedKeyChar c then c else '_') :: replaceDisallowed cs

/-- The sanitizer as written in the source:
`s.toLowerCase().replace(/[^a-z0-9@._-]/g, '_')`. -/
def sanitizeCode (s : Str) : Str := replaceDisallowed (toLowerStr s)

/-- Sanitization as the spec words it: lowercase the mailbox and replace every
character outside `[a-z0-9@._-]` with `_`. -/
def sanitizeSpec (s : Str) : Str :=
  (toLowerStr s).map (fun c => if isAllowedKeyChar c then c else '_')

/-- JS `String(n)` for a natural number (decimal representation). -/
def natToStr (n : Nat) : Str := (Nat.repr n).toList

/-- JS `String.prototype.padStart(2, '0')`. -/
def padStart2 (s : Str) : Str :=
  if 2 ≤ s.length then s else List.replicate (2 - s.length) '0' ++ s

/-- Composition `String(n).padStart(2, '0')` used for each date/time
component. -/
def pad2 (n : Nat) : Str := padStart2 (natToStr n)

/-- The UTC date/time components read from `new Date()`
(`getUTCFullYear`, `getUTCMonth()+1`, `getUTCDate`, `getUTCHours`,
`getUTCMinutes`, `getUTCSeconds`). -/
structure DateT where
  y : Nat
  m : Nat
  d : Nat
  hh : Nat
  mm : Nat
  ss : Nat
deriving DecidableEq

/-- The archive object key exactly as built in the source:
`${y}/${m}/${d}/${safeMailbox}/${hh}${mm}${ss}-${keyId}.eml` with
`safeMailbox = (mailbox || 'unknown').toLowerCase().replace(/[^a-z0-9@._-]/g,'_')`. -/
def buildObjectKey (t : DateT) (keyId : Str) (mailbox : Str) : Str :=
  let safeMailbox := sanitizeCode (jsOr mailbox ("unknown").toList)
  natToStr t.y ++ '/' :: pad2 t.m ++ '/' :: pad2 t.d ++ '/' :: safeMailbox ++
    '/' :: pad2 t.hh ++ pad2 t.mm ++ pad2 t.ss ++ '-' :: keyId ++ (".eml").toList

/-- The object key as the spec words it:
`YYYY/MM/DD/<sanitized-mailbox>/<HHMMSS>-<unique-id>.eml`, sanitized per
`sanitizeSpec`, with `unknown` standing in for an empty mailbox. -/
def buildObjectKeySpec (t : DateT) (keyId : Str) (mailbox : Str) : Str :=
  let sanitized := sanitizeSpec (if mailbox = [] then ("unknown").toList else mailbox)
  natToStr t.y ++ '/' :: pad2 t.m ++ '/' :: pad2 t.d ++ '/' :: sanitized ++
    '/' :: pad2 t.hh ++ pad2 t.mm ++ pad2 t.ss ++ '-' :: keyId ++ (".eml").toList

/-! ## Data model: the `mailboxes` and `messages` tables -/

/-- A row of the `mailboxes` table (fields used by the handlers; `created_at`
and `last_accessed_at` are datastore timestamps modelled as integers, the
boolean flags model the SQL integers `0`/`1` compared with `= 0` in the
sweeper). -/
structure Mailbox where
  id : Nat
  address : Str
  local_part : Str
  domain : Str
  password_hash : Option Str
  created_at : Int
  last_accessed_at : Int
  is_pinned : Bool
  is_favorite : Bool
deriving DecidableEq

/-- A row of the `messages` table, with the columns bound by the insert in the
email handler. -/
structure MessageRow where
  mailbox_id : Nat
  sender : Str
  to_addrs : Str
  subject : Str
  verification_code : Option Str
  preview : Option Str
  r2_bucket : Str
  r2_object_key : Str
deriving DecidableEq

/-- The relational store.  `nextId` models the autoincrement id the datastore
assigns to the next inserted mailbox row; `SELECT ... WHERE address = ?`
returns rows in insertion order, so `results[0]` is the first list match. -/
structure DBState where
  mailboxes : List Mailbox
  messages : List MessageRow
  nextId : Nat
deriving DecidableEq

/-- Observable side effects of a handler invocation, in dispatch order. -/
inductive Effect where
  | forwardMailbox (target : Str)
  | forwardLocal (localPart : Str)
  | r2put (key : Str)
  | r2delete (key : Str)
deriving DecidableEq

/-- Whether an effect is one of the two forwarding dispatches. -/
def Effect.isForward : Effect → Bool
  | .forwardMailbox _ => true
  | .forwardLocal _ => true
  | _ => false

/-! ## Mailbox find-or-create (lines 168–180 of `server.js`) -/

/-- The find-or-create step of the email handler: look the mailbox up by
lowercase address; if absent, destructure `addr.split('@')` as
`[localPartMb, domain]` (a missing second component is falsy, like an empty
one) and insert a fresh row when both parts are truthy, then re-select its id.
Returns the resolved identifier (if any) and the updated store. -/
def findOrCreateMailbox (db : DBState) (mailbox : Str) (now : Int) :
    Option Nat × DBState :=
  let addr := toLowerStr mailbox
  match db.mailboxes.find? (fun mb => mb.address = addr) with
  | some mb => (some mb.id, db)
  | none =>
    let parts := jsSplit '@' addr
    let localPartMb := parts.headD []
    let domain := (parts.get? 1).getD []
    if localPartMb ≠ [] ∧ domain ≠ [] then
      let row : Mailbox :=
        { id := db.nextId, address := addr, local_part := localPartMb,
          domain := domain, password_hash := none, created_at := now,
          last_accessed_at := now, is_pinned := false, is_favorite := false }
      let db' : DBState :=
        { db with mailboxes := db.mailboxes ++ [row], nextId := db.nextId + 1 }
      ((db'.mailboxes.find? (fun mb => mb.address = addr)).map (·.id), db')
    else (none, db)

/-- Number of mailbox rows stored under the canonical lowercase form of an
address. -/
def countAddr (db : DBState) (mailbox : Str) : Nat :=
  (db.mailboxes.filter (fun mb => mb.address = toLowerStr mailbox)).length

/-- The row the find-or-create step inserts when the address is absent and
well-formed (used to state its characterization lemmas). -/
def provisionedRow (db : DBState) (mailbox : Str) (now : Int) : Mailbox :=
  { id := db.nextId, address := toLowerStr mailbox,
    local_part := (jsSplit '@' (toLowerStr mailbox)).headD [],
    domain := ((jsSplit '@' (toLowerStr mailbox)).get? 1).getD [],
    password_hash := none, created_at := now, last_accessed_at := now,
    is_pinned := false, is_favorite := false }

/-- The store after the find-or-create step inserted `provisionedRow`. -/
def provisionedDB (db : DBState) (mailbox : Str) (now : Int) : DBState :=
  { db with
    mailboxes := db.mailboxes ++ [provisionedRow db mailbox now]
    nextId := db.nextId + 1 }

/-! ## The scheduled expiry sweeper (lines 218–271 of `server.js`) -/

/-- Retention window in minutes (`EXPIRE_MINUTES`). -/
def EXPIRE_MINUTES : Int := 30

/-- The SQL age predicate: `created_at` at least `EXPIRE_MINUTES` minutes
before the current datastore clock. -/
def mailboxExpired (now : Int) (mb : Mailbox) : Bool :=
  mb.created_at ≤ now - EXPIRE_MINUTES

/-- Result of one sweep tick: the updated store and the object keys scheduled
for best-effort blob deletion. -/
structure SweepResult where
  db : DBState
  deletes : List Str
deriving DecidableEq

/-- One run of the `scheduled` handler: (1) select the object keys of messages
joined to an expired mailbox with a non-empty key and schedule their blob
deletes when the bucket binding is present; (2) delete message rows whose
`mailbox_id` is in the set of expired mailbox ids (no pin/favorite exclusion);
(3) delete expired mailbox rows except those with `is_pinned` or
`is_favorite` set. -/
def scheduledSweep (now : Int) (r2Present : Bool) (db : DBState) : SweepResult :=
  let expiredKeys :=
    (db.messages.filter (fun msg =>
      db.mailboxes.any (fun mb =>
        mb.id = msg.mailbox_id && mailboxExpired now mb) &&
      msg.r2_object_key ≠ ([] : Str))).map (·.r2_object_key)
  let deletes :=
    if r2Present && !expiredKeys.isEmpty then
      expiredKeys.filter (· ≠ ([] : Str))
    else []
  let expiredIds := (db.mailboxes.filter (mailboxExpired now)).map (·.id)
  let messages' :=
    db.messages.filter (fun msg => !expiredIds.contains msg.mailbox_id)
  let mailboxes' :=
    db.mailboxes.filter (fun mb =>
      !(mailboxExpired now mb && !mb.is_pinned && !mb.is_favorite))
  { db := { db with messages := messages', mailboxes := mailboxes' },
    deletes := deletes }

/-! ## The email handler (lines 84–212 of `server.js`) -/

/-- One entry of a structured envelope recipient list: a plain string, or an
object whose `address` field may be absent. -/
inductive EnvEntry where
  | str (s : Str)
  | obj (addr : Option Str)
deriving DecidableEq

/-- The shape of `message.to`: a list of entries, a single string, absent
(`undefined`), or a getter that throws when accessed. -/
inductive ToValue where
  | arr (entries : List EnvEntry)
  | str (s : Str)
  | absent
  | err
deriving DecidableEq

/-- Lines 99–107: derive `envelopeTo` from `message.to`; a throwing getter or
an unrecognised shape leaves it `''`, and `toValue[0].address || ''` guards a
missing address field. -/
def envelopeFrom : ToValue → Str
  | .arr [] => []
  | .arr (.str s :: _) => s
  | .arr (.obj a :: _) => jsOr (a.getD []) []
  | .str s => s
  | .absent => []
  | .err => []

/-- The header values and envelope data of one inbound message.  Each header
value already reflects `headers.get(k) || headers.get(K) || default` up to the
final default: an absent header is the empty string. -/
structure EmailMsg where
  toHeader : Str
  fromHeader : Str
  subjectHeader : Str
  toValue : ToValue
deriving DecidableEq

/-- The `(无主题)` placeholder subject. -/
def noSubject : Str := ("(无主题)").toList

/-- Line 109: `resolvedRecipient = (envelopeTo || toHeader || '').toString()`. -/
def resolvedRecipientOf (msg : EmailMsg) : Str :=
  jsOr (jsOr (envelopeFrom msg.toValue) msg.toHeader) []

/-- The environment of one email invocation: the helper functions imported
from modules outside this source file, the already-extracted body contents,
the blob-store state, and the clock.  `gft` is `getForwardTarget` (`[]`
standing for a null or empty target), `extractEmail` the address extractor,
`vcode` the result of `extractVerificationCode` (`[]` when it returned
nothing or threw), `textContent`/`htmlContent` the bodies after lines
120–134, `rawOk` whether the raw stream was read, `r2Present` whether the
`MAIL_EML` binding exists, `putRaises` whether `r2.put` raises. -/
structure EmailEnv where
  gft : Str → Str
  extractEmail : Str → Str
  textContent : Str
  htmlContent : Str
  vcode : Str
  r2Present : Bool
  rawOk : Bool
  putRaises : Bool
  date : DateT
  keyId : Str
  nowTs : Int

/-- Line 110: the canonical recipient address. -/
def recipientAddrOf (env : EmailEnv) (msg : EmailMsg) : Str :=
  env.extractEmail (resolvedRecipientOf msg)

/-- Line 111: `(resolvedRecipientAddr.split('@')[0] || '').toLowerCase()`. -/
def localPartOf (env : EmailEnv) (msg : EmailMsg) : Str :=
  toLowerStr (jsOr ((jsSplit '@' (recipientAddrOf env msg)).headD []) [])

/-- Lines 113–118: the single forwarding dispatch, mailbox-specific when the
forward target is truthy, local-part-based otherwise. -/
def forwardEffectOf (env : EmailEnv) (msg : EmailMsg) : Effect :=
  let t := env.gft (recipientAddrOf env msg)
  if t ≠ [] then .forwardMailbox t else .forwardLocal (localPartOf env msg)

/-- Line 136: `mailbox = extractEmail(resolvedRecipient || toHeader)`. -/
def resolvedMailboxOf (env : EmailEnv) (msg : EmailMsg) : Str :=
  env.extractEmail (jsOr (resolvedRecipientOf msg) msg.toHeader)

/-- Lines 159–162: the preview, from the code — the plain text itself when it
is truthy and has a truthy trim, otherwise the tag-stripped, whitespace-
collapsed, trimmed HTML; then `slice(0, 120)`. -/
def previewOf (textContent htmlContent : Str) : Str :=
  let plain :=
    if textContent ≠ [] ∧ trimJs textContent ≠ [] then textContent
    else trimJs (collapseWs (stripTags (jsOr htmlContent [])))
  (jsOr plain []).take 120

/-- Lines 183–195: the joined `to_addrs` column. -/
def toAddrsOf (msg : EmailMsg) : Str :=
  match msg.toValue with
  | .arr entries =>
    joinComma ((entries.map (fun e =>
      match e with
      | .str s => s
      | .obj a => jsOr (a.getD []) [])).filter (· ≠ ([] : Str)))
  | .str s => s
  | .absent => jsOr (jsOr (resolvedRecipientOf msg) msg.toHeader) []
  | .err => jsOr (jsOr (resolvedRecipientOf msg) msg.toHeader) []

/-- Outcome of one email invocation: the store afterwards, the side effects in
order, and whether the handler's try block ended in the catch (the only throw
modelled is the mailbox-resolution failure of line 181; datastore operations
themselves are assumed available). -/
structure EmailResult where
  db : DBState
  effects : List Effect
  errored : Bool

/-- The `email` handler, lines 93–212.  The object key is assigned before
`r2.put` is attempted, so a raising put leaves it at its computed value; the
message row is inserted only when a truthy mailbox id was resolved
(`if (!mailboxId) throw`, so a resolved id of `0` also throws). -/
def emailHandler (env : EmailEnv) (msg : EmailMsg) (db : DBState) : EmailResult :=
  let subject := jsOr msg.subjectHeader noSubject
  let fwd := forwardEffectOf env msg
  let mailbox := resolvedMailboxOf env msg
  let sender := env.extractEmail msg.fromHeader
  let objectKey := buildObjectKey env.date env.keyId mailbox
  let putEffs := if env.r2Present && env.rawOk then [Effect.r2put objectKey] else []
  let preview := previewOf env.textContent env.htmlContent
  let (mbId, db1) := findOrCreateMailbox db mailbox env.nowTs
  match mbId with
  | none => { db := db1, effects := fwd :: putEffs, errored := true }
  | some mid =>
    if mid = 0 then { db := db1, effects := fwd :: putEffs, errored := true }
    else
      let row : MessageRow :=
        { mailbox_id := mid, sender := sender,
          to_addrs := jsOr (toAddrsOf msg) [],
          subject := jsOr subject noSubject,
          verification_code := if env.vcode = [] then none else some env.vcode,
          preview := if preview = [] then none else some preview,
          r2_bucket := ("mail-eml").toList,
          r2_object_key := jsOr objectKey [] }
      { db := { db1 with messages := db1.messages ++ [row] },
        effects := fwd :: putEffs, errored := false }

/-- The message row the handler inserts on the success path (used to state
its characterization lemma). -/
def recordedRow (env : EmailEnv) (msg : EmailMsg) (mid : Nat) : MessageRow :=
  { mailbox_id := mid
    sender := env.extractEmail msg.fromHeader
    to_addrs := jsOr (toAddrsOf msg) []
    subject := jsOr (jsOr msg.subjectHeader noSubject) noSubject
    verification_code := if env.vcode = [] then none else some env.vcode
    preview := if previewOf env.textContent env.htmlContent = [] then none
               else some (previewOf env.textContent env.htmlContent)
    r2_bucket := ("mail-eml").toList
    r2_object_key := jsOr (buildObjectKey env.date env.keyId (resolvedMailboxOf env msg)) [] }

/-! ## Concrete fixtures used by witnesses and counterexamples -/

/-- A concrete invocation environment whose blob-store put raises. -/
def envPutFail : EmailEnv :=
  { gft := fun _ => []
    extractEmail := fun s => s
    textContent := ("hello").toList
    htmlContent := []
    vcode := []
    r2Present := true
    rawOk := true
    putRaises := true
    date := { y := 2025, m := 1, d := 2, hh := 3, mm := 4, ss := 5 }
    keyId := ("id1").toList
    nowTs := 50 }

/-- A concrete inbound message addressed to `u@x.y`. -/
def msgToU : EmailMsg :=
  { toHeader := ("u@x.y").toList
    fromHeader := ("s@x.y").toList
    subjectHeader := ("Hi").toList
    toValue := .absent }

/-- The stored mailbox row for `u@x.y`. -/
def mbU : Mailbox :=
  { id := 1, address := ("u@x.y").toList, local_part := ("u").toList,
    domain := ("x.y").toList, password_hash := none, created_at := 0,
    last_accessed_at := 0, is_pinned := false, is_favorite := false }

/-- A store already holding the mailbox `u@x.y` with id 1. -/
def dbWithU : DBState :=
  { mailboxes := [mbU]
    messages := []
    nextId := 2 }

/-- An empty relational store. -/
def dbEmpty : DBState := { mailboxes := [], messages := [], nextId := 1 }

/-- A concrete environment whose address extractor yields a value without
`@` (a malformed recipient). -/
def envNoAt : EmailEnv :=
  { gft := fun _ => []
    extractEmail := fun _ => ("bad").toList
    textContent := []
    htmlContent := []
    vcode := []
    r2Present := false
    rawOk := false
    putRaises := false
    date := { y := 2025, m := 1, d := 2, hh := 3, mm := 4, ss := 5 }
    keyId := ("id2").toList
    nowTs := 7 }

/-- A pinned mailbox far older than the retention window. -/
def mbPinnedOld : Mailbox :=
  { id := 1, address := ("old@x.y").toList, local_part := ("old").toList,
    domain := ("x.y").toList, password_hash := none, created_at := 0,
    last_accessed_at := 0, is_pinned := true, is_favorite := false }

/-- A favorited mailbox far older than the retention window. -/
def mbFavOld : Mailbox :=
  { id := 2, address := ("fav@x.y").toList, local_part := ("fav").toList,
    domain := ("x.y").toList, password_hash := none, created_at := 0,
    last_accessed_at := 0, is_pinned := false, is_favorite := true }

/-- A message owned by `mbFavOld`. -/
def msgOfFav : MessageRow :=
  { mailbox_id := 2, sender := ("s@x.y").toList, to_addrs := ("fav@x.y").toList,
    subject := ("hi").toList, verification_code := none, preview := none,
    r2_bucket := ("mail-eml").toList, r2_object_key := ("k1").toList }

/-- A store holding the two flagged old mailboxes and one message. -/
def dbSweep : DBState :=
  { mailboxes := [mbPinnedOld, mbFavOld], messages := [msgOfFav], nextId := 3 }

/-! ## Claims -/

/-- General helper: appending past a failed search continues in the suffix. -/
theorem find?_append_of_none {α : Type} {p : α → Bool} {l₁ l₂ : List α}
    (h : l₁.find? p = none) : (l₁ ++ l₂).find? p = l₂.find? p := by
  induction l₁ with
  | nil => simp
  | cons a l ih =>
    rw [List.find?_eq_none] at h
    have ha : ¬ p a := h a (List.mem_cons_self a l)
    rw [List.cons_append, List.find?_cons_of_neg _ ha]
    exact ih (List.find?_eq_none.mpr fun x hx => h x (List.mem_cons_of_mem a hx))

/-- Shared helper: the mailbox-delete filter keeps every flagged row. -/
theorem mem_sweep_mailboxes_of_flag (now : Int) (r2p : Bool)
    (db : DBState) (mb : Mailbox) (hmem : mb ∈ db.mailboxes)
    (hflag : mb.is_pinned = true ∨ mb.is_favorite = true) :
    mb ∈ (scheduledSweep now r2p db).db.mailboxes := by
  simp only [scheduledSweep, List.mem_filter]
  refine ⟨hmem, ?_⟩
  rcases hflag with h | h <;> simp [h]

/-- Shared helper: the sweep deletes every message whose owning mailbox is
older than the retention window. -/
theorem not_mem_sweep_messages_of_expired_owner (now : Int) (r2p : Bool)
    (db : DBState) (mb : Mailbox) (m : MessageRow)
    (hmb : mb ∈ db.mailboxes) (hexp : mb.created_at ≤ now - EXPIRE_MINUTES)
    (hm : m.mailbox_id = mb.id) :
    m ∉ (scheduledSweep now r2p db).db.messages := by
  intro hcon
  simp only [scheduledSweep, List.mem_filter] at hcon
  rcases hcon with ⟨-, hkeep⟩
  have hid : mb.id ∈ (db.mailboxes.filter (mailboxExpired now)).map (·.id) :=
    List.mem_map.mpr ⟨mb, List.mem_filter.mpr ⟨hmb, by
      simp [mailboxExpired, hexp]⟩, rfl⟩
  rw [hm] at hkeep
  simp only [List.contains, List.elem_eq_mem, Bool.not_eq_true',
    decide_eq_false_iff_not] at hkeep
  exact hkeep hid

/-- C2: a run of the scheduled Expiry Sweeper leaves every mailbox row with
`is_pinned` or `is_favorite` set in the table, however old its `created_at`. -/
theorem sweeper_preserves_flagged_mailboxes (now : Int) (r2p : Bool)
    (db : DBState) (mb : Mailbox) (hmem : mb ∈ db.mailboxes)
    (hflag : mb.is_pinned = true ∨ mb.is_favorite = true) :
    mb ∈ (scheduledSweep now r2p db).db.mailboxes :=
  mem_sweep_mailboxes_of_flag now r2p db mb hmem hflag

/-- Witness for C2 at a concrete store and clock. -/
theorem sweeper_preserves_flagged_mailboxes_witness :
    mbPinnedOld ∈ (scheduledSweep 100 true dbSweep).db.mailboxes :=
  sweeper_preserves_flagged_mailboxes 100 true dbSweep mbPinnedOld
    (by decide) (by decide)

/-- C3 counterexample: a mailbox 100 minutes old with `is_favorite = true`
survives the sweep, but its message row does not — refuting the claim that
the messages of an old favorited mailbox are left unchanged. -/
theorem sweeper_favorite_messages_counterexample :
    mbFavOld ∈ dbSweep.mailboxes ∧ mbFavOld.is_favorite = true ∧
    mbFavOld.created_at ≤ 100 - EXPIRE_MINUTES ∧
    msgOfFav ∈ dbSweep.messages ∧ msgOfFav.mailbox_id = mbFavOld.id ∧
    msgOfFav ∉ (scheduledSweep 100 true dbSweep).db.messages := by
  decide

/-- C3 amended: when a favorited mailbox is older than the retention window,
the sweep keeps the mailbox row but deletes every message row it owns — the
message-delete subquery is gated on mailbox age only, without the
pin/favorite exclusion. -/
theorem sweeper_expired_favorite_keeps_mailbox_deletes_messages
    (now : Int) (r2p : Bool) (db : DBState) (mb : Mailbox) (m : MessageRow)
    (hmb : mb ∈ db.mailboxes) (hfav : mb.is_favorite = true)
    (hexp : mb.created_at ≤ now - EXPIRE_MINUTES) (hm : m.mailbox_id = mb.id) :
    mb ∈ (scheduledSweep now r2p db).db.mailboxes ∧
    m ∉ (scheduledSweep now r2p db).db.messages :=
  ⟨mem_sweep_mailboxes_of_flag now r2p db mb hmb (Or.inr hfav),
   not_mem_sweep_messages_of_expired_owner now r2p db mb m hmb hexp hm⟩

/-- Witness for the amended C3 at the concrete store. -/
theorem sweeper_expired_favorite_witness :
    mbFavOld ∈ (scheduledSweep 100 true dbSweep).db.mailboxes ∧
    msgOfFav ∉ (scheduledSweep 100 true dbSweep).db.messages :=
  sweeper_expired_favorite_keeps_mailbox_deletes_messages 100 true dbSweep
    mbFavOld msgOfFav (by decide) (by decide) (by decide) (by decide)

/-- Characterization: a stored address is reused. -/
theorem findOrCreate_found (db : DBState) (a : Str) (t : Int) (mb : Mailbox)
    (h : db.mailboxes.find? (fun x => x.address = toLowerStr a) = some mb) :
    findOrCreateMailbox db a t = (some mb.id, db) := by
  simp only [findOrCreateMailbox]
  rw [h]

/-- Characterization: a missing, malformed address resolves nothing and leaves
the store unchanged. -/
theorem findOrCreate_malformed (db : DBState) (a : Str) (t : Int)
    (h : db.mailboxes.find? (fun x => x.address = toLowerStr a) = none)
    (hc : ¬ ((jsSplit '@' (toLowerStr a)).headD [] ≠ [] ∧
      ((jsSplit '@' (toLowerStr a)).get? 1).getD [] ≠ [])) :
    findOrCreateMailbox db a t = (none, db) := by
  simp only [findOrCreateMailbox]
  rw [h]
  simp only [if_neg hc]

/-- Characterization: a missing, well-formed address is inserted and the new
row's id is re-selected. -/
theorem findOrCreate_inserts (db : DBState) (a : Str) (t : Int)
    (h : db.mailboxes.find? (fun x => x.address = toLowerStr a) = none)
    (hc : (jsSplit '@' (toLowerStr a)).headD [] ≠ [] ∧
      ((jsSplit '@' (toLowerStr a)).get? 1).getD [] ≠ []) :
    findOrCreateMailbox db a t = (some db.nextId, provisionedDB db a t) := by
  simp only [findOrCreateMailbox]
  rw [h]
  simp only [if_pos hc]
  have hfind : (db.mailboxes ++ [provisionedRow db a t]).find?
      (fun x => decide (x.address = toLowerStr a)) = some (provisionedRow db a t) := by
    rw [find?_append_of_none h]
    exact List.find?_cons_of_pos _ (by simp [provisionedRow])
  show (((db.mailboxes ++ [provisionedRow db a t]).find?
      (fun x => decide (x.address = toLowerStr a))).map (·.id),
    provisionedDB db a t) = (some db.nextId, provisionedDB db a t)
  rw [hfind]
  rfl

/-- The find-or-create step finds the row it just inserted. -/
theorem provisionedDB_find (db : DBState) (a : Str) (t : Int)
    (h : db.mailboxes.find? (fun x => x.address = toLowerStr a) = none) :
    (provisionedDB db a t).mailboxes.find?
      (fun x => x.address = toLowerStr a) = some (provisionedRow db a t) := by
  show (db.mailboxes ++ [provisionedRow db a t]).find?
      (fun x => decide (x.address = toLowerStr a)) = some (provisionedRow db a t)
  rw [find?_append_of_none h]
  exact List.find?_cons_of_pos _ (by simp [provisionedRow])

/-- C4: mailbox provisioning is idempotent — running find-or-create twice
with the same address, sequentially on the resulting store, resolves the same
identifier both times, and the store never holds more than one row for the
canonical lowercase address (given it held at most one to begin with). -/
theorem provisioner_idempotent (db : DBState) (a : Str) (t1 t2 : Int)
    (hone : countAddr db a ≤ 1) :
    (findOrCreateMailbox (findOrCreateMailbox db a t1).2 a t2).1
      = (findOrCreateMailbox db a t1).1 ∧
    countAddr (findOrCreateMailbox (findOrCreateMailbox db a t1).2 a t2).2 a ≤ 1 := by
  cases h1 : db.mailboxes.find? (fun x => x.address = toLowerStr a) with
  | some mb =>
    rw [findOrCreate_found db a t1 mb h1]
    rw [show (some mb.id, db).2 = db from rfl, findOrCreate_found db a t2 mb h1]
    exact ⟨rfl, hone⟩
  | none =>
    by_cases hc : (jsSplit '@' (toLowerStr a)).headD [] ≠ [] ∧
        ((jsSplit '@' (toLowerStr a)).get? 1).getD [] ≠ []
    · rw [findOrCreate_inserts db a t1 h1 hc]
      rw [show (some db.nextId, provisionedDB db a t1).2 = provisionedDB db a t1 from rfl,
        findOrCreate_found (provisionedDB db a t1) a t2 (provisionedRow db a t1)
          (provisionedDB_find db a t1 h1)]
      refine ⟨rfl, ?_⟩
      show countAddr (provisionedDB db a t1) a ≤ 1
      have hnil : db.mailboxes.filter (fun mb => mb.address = toLowerStr a) = [] :=
        List.filter_eq_nil_iff.mpr (by
          intro x hx
          exact fun hpx => (List.find?_eq_none.mp h1 x hx) hpx)
      show ((db.mailboxes ++ [provisionedRow db a t1]).filter
        (fun mb => decide (mb.address = toLowerStr a))).length ≤ 1
      rw [List.filter_append, hnil]
      simp [provisionedRow]
    · rw [findOrCreate_malformed db a t1 h1 hc]
      rw [show ((none : Option Nat), db).2 = db from rfl,
        findOrCreate_malformed db a t2 h1 hc]
      exact ⟨rfl, hone⟩

/-- Witness for C4: provisioning a brand-new address twice on an empty store. -/
theorem provisioner_idempotent_witness :
    countAddr { mailboxes := [], messages := [], nextId := 1 } (("a@b.c").toList) ≤ 1 ∧
    ((findOrCreateMailbox
        ((findOrCreateMailbox { mailboxes := [], messages := [], nextId := 1 }
          (("a@b.c").toList) 0).2) (("a@b.c").toList) 0).1
      = (findOrCreateMailbox { mailboxes := [], messages := [], nextId := 1 }
          (("a@b.c").toList) 0).1 ∧
     countAddr ((findOrCreateMailbox
        ((findOrCreateMailbox { mailboxes := [], messages := [], nextId := 1 }
          (("a@b.c").toList) 0).2) (("a@b.c").toList) 0).2) (("a@b.c").toList) ≤ 1) :=
  ⟨by decide,
   provisioner_idempotent { mailboxes := [], messages := [], nextId := 1 }
     (("a@b.c").toList) 0 0 (by decide)⟩

/-- Lowercasing maps no other character to `@`. -/
theorem char_toLower_at {c : Char} (h : c.toLower = '@') : c = '@' := by
  unfold Char.toLower at h
  by_cases hc : c.toNat ≥ 65 ∧ c.toNat ≤ 90
  · rw [if_pos hc] at h
    have hvalid : (c.toNat + 32).isValidChar := Or.inl (by omega)
    have hv : (Char.ofNat (c.toNat + 32)).toNat = ('@').toNat := by rw [h]
    rw [Char.ofNat, dif_pos hvalid] at hv
    have hv2 : c.toNat + 32 = 64 := hv
    omega
  · rwa [if_neg hc] at h

/-- A string without `@` still lacks `@` after lowercasing. -/
theorem at_not_mem_toLowerStr {s : Str} (h : '@' ∉ s) : '@' ∉ toLowerStr s := by
  intro hc
  rcases List.mem_map.mp hc with ⟨c, hcs, hlow⟩
  exact h (char_toLower_at hlow ▸ hcs)

/-- Splitting a string that lacks the separator yields the singleton list. -/
theorem jsSplit_no_sep {sep : Char} {s : Str} (h : sep ∉ s) :
    jsSplit sep s = [s] := by
  induction s with
  | nil => rfl
  | cons c cs ih =>
    have hc : c ≠ sep := fun he => h (he ▸ List.mem_cons_self c cs)
    have hcs : sep ∉ cs := fun hm => h (List.mem_cons_of_mem c hm)
    simp only [jsSplit, if_neg hc, ih hcs]

/-- Find-or-create on an absent address lacking `@` resolves nothing and
leaves the store unchanged. -/
theorem findOrCreate_no_at (db : DBState) (a : Str) (t : Int)
    (h : db.mailboxes.find? (fun x => x.address = toLowerStr a) = none)
    (hat : '@' ∉ a) :
    findOrCreateMailbox db a t = (none, db) := by
  apply findOrCreate_malformed db a t h
  rw [jsSplit_no_sep (at_not_mem_toLowerStr hat)]
  simp

/-- The find-or-create step never touches the `messages` table. -/
theorem findOrCreate_messages (db : DBState) (a : Str) (t : Int) :
    (findOrCreateMailbox db a t).2.messages = db.messages := by
  simp only [findOrCreateMailbox]
  cases h : db.mailboxes.find? (fun x => decide (x.address = toLowerStr a)) with
  | some mb => rfl
  | none =>
    by_cases hc : (jsSplit '@' (toLowerStr a)).headD [] ≠ [] ∧
        ((jsSplit '@' (toLowerStr a)).get? 1).getD [] ≠ []
    · rw [if_pos hc]
    · rw [if_neg hc]

/-- The handler's effect trace: the single forwarding dispatch, then the blob
put when the bucket binding and the raw buffer are both present. -/
theorem emailHandler_effects (env : EmailEnv) (msg : EmailMsg) (db : DBState) :
    (emailHandler env msg db).effects = forwardEffectOf env msg ::
      (if env.r2Present && env.rawOk then
        [Effect.r2put (buildObjectKey env.date env.keyId (resolvedMailboxOf env msg))]
      else []) := by
  simp only [emailHandler]
  rcases h : findOrCreateMailbox db (resolvedMailboxOf env msg) env.nowTs with ⟨mbId, db1⟩
  cases mbId with
  | none => rfl
  | some mid =>
    by_cases h0 : mid = 0
    · simp only [if_pos h0]
    · simp only [if_neg h0]

/-- The forwarding dispatch is a forward, whichever strategy fires. -/
theorem isForward_forwardEffectOf (env : EmailEnv) (msg : EmailMsg) :
    (forwardEffectOf env msg).isForward = true := by
  by_cases h : env.gft (recipientAddrOf env msg) ≠ [] <;>
    simp [forwardEffectOf, h, Effect.isForward]

/-- The forward effects of one invocation are exactly the one dispatch. -/
theorem emailHandler_forward_effects (env : EmailEnv) (msg : EmailMsg) (db : DBState) :
    (emailHandler env msg db).effects.filter Effect.isForward =
      [forwardEffectOf env msg] := by
  rw [emailHandler_effects]
  by_cases hg : env.gft (recipientAddrOf env msg) ≠ [] <;>
    by_cases hr : (env.r2Present && env.rawOk) = true <;>
      simp [forwardEffectOf, hg, hr, Effect.isForward, List.filter_cons]

/-- Success-path characterization of the handler: with a truthy resolved
mailbox id, exactly the row `recordedRow` is appended to `messages`. -/
theorem emailHandler_success (env : EmailEnv) (msg : EmailMsg) (db : DBState)
    (mid : Nat) (db1 : DBState)
    (h : findOrCreateMailbox db (resolvedMailboxOf env msg) env.nowTs = (some mid, db1))
    (h0 : mid ≠ 0) :
    emailHandler env msg db =
      { db := { db1 with messages := db1.messages ++ [recordedRow env msg mid] }
        effects := forwardEffectOf env msg ::
          (if env.r2Present && env.rawOk then
            [Effect.r2put (buildObjectKey env.date env.keyId (resolvedMailboxOf env msg))]
          else [])
        errored := false } := by
  simp only [emailHandler, h]
  simp only [if_neg h0]
  rfl

/-- Error-path characterization: when find-or-create resolves nothing, the
handler lands in its catch with the store unchanged. -/
theorem emailHandler_unresolved (env : EmailEnv) (msg : EmailMsg) (db : DBState)
    (h : findOrCreateMailbox db (resolvedMailboxOf env msg) env.nowTs = (none, db)) :
    (emailHandler env msg db).errored = true ∧
    (emailHandler env msg db).db = db := by
  simp only [emailHandler, h]
  exact ⟨trivial, trivial⟩

/-- JS `x || ''` is the identity on strings. -/
theorem jsOr_nil (s : Str) : jsOr s [] = s := by
  by_cases h : s = [] <;> simp [jsOr, h]

/-- The scanning replace agrees with a per-character map. -/
theorem replaceDisallowed_eq_map (s : Str) :
    replaceDisallowed s = s.map (fun c => if isAllowedKeyChar c then c else '_') := by
  induction s with
  | nil => rfl
  | cons c cs ih => simp [replaceDisallowed, ih]

/-- The source's sanitizer equals the spec's wording of it. -/
theorem sanitizeCode_eq_spec (s : Str) : sanitizeCode s = sanitizeSpec s := by
  simp [sanitizeCode, sanitizeSpec, replaceDisallowed_eq_map]

/-- The built object key is never the empty string. -/
theorem buildObjectKey_ne_nil (t : DateT) (k m : Str) :
    buildObjectKey t k m ≠ [] := by
  simp [buildObjectKey]

/-- Decimal representations below 100 have one or two digits. -/
theorem natToStr_length_le_two :
    ∀ n, n < 100 → 1 ≤ (natToStr n).length ∧ (natToStr n).length ≤ 2 := by
  decide

/-- Zero-padding to width two yields exactly two characters below 100. -/
theorem pad2_length_two {n : Nat} (h : n < 100) : (pad2 n).length = 2 := by
  obtain ⟨h1, h2⟩ := natToStr_length_le_two n h
  unfold pad2 padStart2
  by_cases hl : 2 ≤ (natToStr n).length
  · rw [if_pos hl]; omega
  · rw [if_neg hl]
    simp only [List.length_append, List.length_replicate]
    omega

/-- C5: when the resolved mailbox address has no `@` and matches no stored
mailbox row, the handler raises the mailbox-resolution error internally
(its try block lands in the catch) and no message metadata row is written. -/
theorem no_at_mailbox_error_no_row (env : EmailEnv) (msg : EmailMsg)
    (db : DBState) (hat : '@' ∉ resolvedMailboxOf env msg)
    (hnone : ∀ mb ∈ db.mailboxes,
      mb.address ≠ toLowerStr (resolvedMailboxOf env msg)) :
    (emailHandler env msg db).errored = true ∧
    (emailHandler env msg db).db.messages = db.messages := by
  have hfind : db.mailboxes.find?
      (fun x => x.address = toLowerStr (resolvedMailboxOf env msg)) = none :=
    List.find?_eq_none.mpr (fun x hx => by simpa using hnone x hx)
  have hfc := findOrCreate_no_at db (resolvedMailboxOf env msg) env.nowTs hfind hat
  obtain ⟨he, hdb⟩ := emailHandler_unresolved env msg db hfc
  exact ⟨he, by rw [hdb]⟩

/-- Witness for C5: a malformed recipient against the empty store. -/
theorem no_at_mailbox_error_no_row_witness :
    (emailHandler envNoAt msgToU dbEmpty).errored = true ∧
    (emailHandler envNoAt msgToU dbEmpty).db.messages = dbEmpty.messages :=
  no_at_mailbox_error_no_row envNoAt msgToU dbEmpty (by decide)
    (by intro mb hmb; cases hmb)

/-- C10: the forwarding dispatch precedes mailbox resolution — even when the
recipient address lacks `@`, so that ingestion aborts with a resolution error
and no row is written, exactly one forwarding dispatch has already run. -/
theorem forward_dispatched_despite_resolution_failure (env : EmailEnv)
    (msg : EmailMsg) (db : DBState) (hat : '@' ∉ resolvedMailboxOf env msg)
    (hnone : ∀ mb ∈ db.mailboxes,
      mb.address ≠ toLowerStr (resolvedMailboxOf env msg)) :
    (emailHandler env msg db).errored = true ∧
    (emailHandler env msg db).db.messages = db.messages ∧
    ((emailHandler env msg db).effects.filter Effect.isForward).length = 1 := by
  have hfind : db.mailboxes.find?
      (fun x => x.address = toLowerStr (resolvedMailboxOf env msg)) = none :=
    List.find?_eq_none.mpr (fun x hx => by simpa using hnone x hx)
  have hfc := findOrCreate_no_at db (resolvedMailboxOf env msg) env.nowTs hfind hat
  obtain ⟨he, hdb⟩ := emailHandler_unresolved env msg db hfc
  refine ⟨he, by rw [hdb], ?_⟩
  rw [emailHandler_forward_effects]
  rfl

/-- Witness for C10: the malformed recipient still gets one dispatch. -/
theorem forward_dispatched_despite_resolution_failure_witness :
    (emailHandler envNoAt msgToU dbEmpty).errored = true ∧
    (emailHandler envNoAt msgToU dbEmpty).db.messages = dbEmpty.messages ∧
    ((emailHandler envNoAt msgToU dbEmpty).effects.filter Effect.isForward).length = 1 :=
  forward_dispatched_despite_resolution_failure envNoAt msgToU dbEmpty
    (by decide) (by intro mb hmb; cases hmb)

/-- C7: every invocation dispatches exactly one forwarding strategy — the
mailbox-specific one when the forward-target lookup is non-empty, the
local-part one otherwise; never both, never neither. -/
theorem forwarding_exactly_one_strategy (env : EmailEnv) (msg : EmailMsg)
    (db : DBState) :
    (emailHandler env msg db).effects.filter Effect.isForward =
      [forwardEffectOf env msg] ∧
    ((env.gft (recipientAddrOf env msg) ≠ [] ∧
        forwardEffectOf env msg =
          .forwardMailbox (env.gft (recipientAddrOf env msg))) ∨
     (env.gft (recipientAddrOf env msg) = [] ∧
        forwardEffectOf env msg = .forwardLocal (localPartOf env msg))) := by
  refine ⟨emailHandler_forward_effects env msg db, ?_⟩
  by_cases hg : env.gft (recipientAddrOf env msg) = []
  · exact Or.inr ⟨hg, by simp [forwardEffectOf, hg]⟩
  · exact Or.inl ⟨hg, by simp [forwardEffectOf, hg]⟩

/-- C1 counterexample: with the blob put raising (`putRaises = true`), the
single inserted metadata row carries the full computed object key, not the
empty string the claim asserts. -/
theorem put_failure_empty_key_counterexample :
    envPutFail.putRaises = true ∧
    (emailHandler envPutFail msgToU dbWithU).db.messages.map (·.r2_object_key) =
      [("2025/01/02/u@x.y/030405-id1.eml").toList] ∧
    (("2025/01/02/u@x.y/030405-id1.eml").toList : Str) ≠ [] := by
  decide

/-- C1 amended: when the blob put raises, the handler still inserts exactly
one metadata row, and that row's object key is the computed archive key
(assigned before the put was attempted) — a non-empty string, not the empty
string. -/
theorem put_failure_one_row_with_computed_key (env : EmailEnv) (msg : EmailMsg)
    (db : DBState) (mid : Nat) (db1 : DBState)
    (hput : env.putRaises = true)
    (h : findOrCreateMailbox db (resolvedMailboxOf env msg) env.nowTs = (some mid, db1))
    (h0 : mid ≠ 0) :
    (emailHandler env msg db).db.messages = db.messages ++ [recordedRow env msg mid] ∧
    (recordedRow env msg mid).r2_object_key =
      buildObjectKey env.date env.keyId (resolvedMailboxOf env msg) ∧
    (recordedRow env msg mid).r2_object_key ≠ [] := by
  have hmsg : db1.messages = db.messages := by
    have hp := findOrCreate_messages db (resolvedMailboxOf env msg) env.nowTs
    rw [h] at hp
    exact hp
  have hkey : (recordedRow env msg mid).r2_object_key =
      buildObjectKey env.date env.keyId (resolvedMailboxOf env msg) := by
    show jsOr (buildObjectKey env.date env.keyId (resolvedMailboxOf env msg)) [] = _
    exact jsOr_nil _
  refine ⟨?_, hkey, ?_⟩
  · rw [emailHandler_success env msg db mid db1 h h0]
    show db1.messages ++ [recordedRow env msg mid] = _
    rw [hmsg]
  · rw [hkey]
    exact buildObjectKey_ne_nil _ _ _

/-- Witness for the amended C1 at the concrete put-failure invocation. -/
theorem put_failure_one_row_witness :
    (emailHandler envPutFail msgToU dbWithU).db.messages =
      dbWithU.messages ++ [recordedRow envPutFail msgToU 1] ∧
    (recordedRow envPutFail msgToU 1).r2_object_key =
      buildObjectKey envPutFail.date envPutFail.keyId
        (resolvedMailboxOf envPutFail msgToU) ∧
    (recordedRow envPutFail msgToU 1).r2_object_key ≠ [] :=
  put_failure_one_row_with_computed_key envPutFail msgToU dbWithU 1 dbWithU
    rfl (by decide) (by decide)

/-- C6: the archive object key equals the spec's
`YYYY/MM/DD/<sanitized-mailbox>/<HHMMSS>-<unique-id>.eml` form — the
sanitizer matches the spec's wording (lowercase, every character outside
`[a-z0-9@._-]` replaced by `_`, `unknown` for an empty mailbox) and each
two-digit component is zero-padded to exactly two characters. -/
theorem archive_key_matches_spec (t : DateT) (keyId mailbox : Str)
    (hm : t.m < 100) (hd : t.d < 100) (hh : t.hh < 100)
    (hmi : t.mm < 100) (hs : t.ss < 100) :
    buildObjectKey t keyId mailbox = buildObjectKeySpec t keyId mailbox ∧
    (pad2 t.m).length = 2 ∧ (pad2 t.d).length = 2 ∧ (pad2 t.hh).length = 2 ∧
    (pad2 t.mm).length = 2 ∧ (pad2 t.ss).length = 2 := by
  refine ⟨?_, pad2_length_two hm, pad2_length_two hd, pad2_length_two hh,
    pad2_length_two hmi, pad2_length_two hs⟩
  simp only [buildObjectKey, buildObjectKeySpec, jsOr, sanitizeCode_eq_spec]

/-- Witness for C6 at a concrete date, id and unsanitized mailbox. -/
theorem archive_key_matches_spec_witness :
    buildObjectKey { y := 2025, m := 1, d := 2, hh := 3, mm := 4, ss := 5 }
        (("id1").toList) (("U x@Y!").toList) =
      buildObjectKeySpec { y := 2025, m := 1, d := 2, hh := 3, mm := 4, ss := 5 }
        (("id1").toList) (("U x@Y!").toList) ∧
    (pad2 1).length = 2 ∧ (pad2 2).length = 2 ∧ (pad2 3).length = 2 ∧
    (pad2 4).length = 2 ∧ (pad2 5).length = 2 :=
  archive_key_matches_spec { y := 2025, m := 1, d := 2, hh := 3, mm := 4, ss := 5 }
    (("id1").toList) (("U x@Y!").toList)
    (by decide) (by decide) (by decide) (by decide) (by decide)

/-- C8 counterexample: a plain-text body `" a"` is non-empty after trimming,
yet the stored preview is the untrimmed `" a"`, not the trimmed `"a"` the
claim asserts. -/
theorem preview_trim_counterexample :
    trimJs ((" a").toList) ≠ [] ∧
    previewOf ((" a").toList) [] = (" a").toList ∧
    previewOf ((" a").toList) [] ≠ (trimJs ((" a").toList)).take 120 := by
  decide

/-- C8 amended: the stored preview is the plain-text body itself (untrimmed)
when its trim is non-empty, and otherwise the HTML body with tags stripped,
whitespace runs collapsed and trimmed; in both cases truncated to at most 120
characters. -/
theorem preview_characterization (t h : Str) :
    previewOf t h =
      (if trimJs t = [] then trimJs (collapseWs (stripTags (jsOr h [])))
       else t).take 120 ∧
    (previewOf t h).length ≤ 120 := by
  constructor
  · unfold previewOf
    by_cases ht : trimJs t = []
    · have hcond : ¬ (t ≠ [] ∧ trimJs t ≠ []) := by simp [ht]
      rw [if_neg hcond, if_pos ht]
      simp only [jsOr_nil]
    · have htne : t ≠ [] := by
        intro he
        rw [he] at ht
        exact ht rfl
      rw [if_pos ⟨htne, ht⟩, if_neg ht]
      simp only [jsOr_nil]
  · simp only [previewOf]
    rw [List.length_take]
    exact Nat.min_le_left _ _

/-- C9: the canonical recipient prefers the envelope-derived value and falls
back to the header `To`; the derivation is a total function (it cannot
throw), and unparseable envelope shapes (empty list, entry without an
address, throwing getter) yield the empty string. -/
theorem recipient_resolution (tv : ToValue) (th fh sh : Str) :
    resolvedRecipientOf
        { toHeader := th, fromHeader := fh, subjectHeader := sh, toValue := tv } =
      (if envelopeFrom tv = [] then th else envelopeFrom tv) ∧
    envelopeFrom (.arr []) = [] ∧
    envelopeFrom (.arr [.obj none]) = [] ∧
    envelopeFrom .err = [] := by
  refine ⟨?_, by decide, by decide, by decide⟩
  unfold resolvedRecipientOf
  by_cases he : envelopeFrom tv = [] <;> by_cases hth : th = [] <;>
    simp [jsOr, he, hth]

end Mailfree
